import Mathlib

/-!
Shallow embedding of the webscraping repository (src/app/scraper.py,
src/app/database.py, src/app/__init__.py).

Prices are modelled as `Rat` (Python floats / SQL `Numeric(10,2)` values at the
precision the program manipulates), timestamps as `Int` seconds, and the
database session as an explicit `DBState` record threaded through the
operations.  Network fetches are modelled by environments (functions from a
URL to an outcome) supplied as parameters.
-/

namespace Scrape

/-! ### Price normalization (scraper.py lines 129-133 and 168-174)

The source normalizes a scraped price text in three steps:
`price_text.replace(".", "").replace(",", ".")`, then
`re.sub(r"[^\d.]", "", ...)`, then `float(...)` guarded by truthiness.
Digits are modelled as ASCII digits (the inputs the program sees are
catalog price strings such as "1.234,56 TL"). -/

/-- Model of `price_text.replace(".", "").replace(",", ".")`: every period is
deleted, then every comma becomes a period. -/
def pyReplacePeriodsThenCommas (cs : List Char) : List Char :=
  (cs.filter (fun c => !(c == '.'))).map (fun c => if c == ',' then '.' else c)

/-- Model of `re.sub(r"[^\d.]", "", s)`: keep only digits and periods. -/
def pyStripNonPriceChars (cs : List Char) : List Char :=
  cs.filter (fun c => c.isDigit || c == '.')

/-- Value of a digit string read left to right (base 10). -/
def digitsToNat (cs : List Char) : Nat :=
  cs.foldl (fun n c => 10 * n + (c.toNat - 48)) 0

/-- Model of Python `float(s)` restricted to the strings that reach it here,
which consist only of digits and periods: the parse succeeds exactly when the
string has at most one period and at least one digit, in which case the value
is the integer part plus the fractional part scaled down; otherwise `float`
raises `ValueError`, modelled as `none`. -/
def pyFloatOfPriceChars (cs : List Char) : Option Rat :=
  if cs.count '.' ≤ 1 && cs.any Char.isDigit then
    some ((digitsToNat (cs.takeWhile (fun c => !(c == '.'))) : Rat)
      + (digitsToNat ((cs.dropWhile (fun c => !(c == '.'))).drop 1) : Rat)
        / (10 : Rat) ^ ((cs.dropWhile (fun c => !(c == '.'))).drop 1).length)
  else none

/-- Outcome of the inline normalization pipeline. -/
inductive NormResult
  | val (q : Rat)
  | noValue
  | raised
deriving DecidableEq

/-- The normalization pipeline applied to a price text (scraper.py 129-133,
168-174): an empty (falsy) text yields no value; text that cleans to the
empty string yields `None`; otherwise the cleaned text is passed to `float`,
which either produces a value or raises `ValueError`. -/
def normalizePrice (s : String) : NormResult :=
  if s = "" then .noValue
  else
    match pyFloatOfPriceChars (pyStripNonPriceChars (pyReplacePeriodsThenCommas s.data)),
          pyStripNonPriceChars (pyReplacePeriodsThenCommas s.data) with
    | _, [] => .noValue
    | some q, _ => .val q
    | none, _ => .raised

/-- Normalization of an optional price text: a missing `.price-current`
element gives `price_text = None`, which both call sites turn into `None`
(scraper.py 130-133 via the falsy branch, 168-170 via the early return). -/
def normalizeOptPrice (t : Option String) : NormResult :=
  match t with
  | none => .noValue
  | some s => normalizePrice s

/-- The decimal denoted by a cleaned digits-and-period string: all its digits
read as one integer, divided by ten to the number of digits that stand right
of the period.  Used to characterize the value `float` returns. -/
def decimalOfPriceChars (cs : List Char) : Rat :=
  (digitsToNat (cs.filter Char.isDigit) : Rat) /
    (10 : Rat) ^ ((cs.dropWhile (fun c => !(c == '.'))).drop 1).length

/-! ### In-memory products and page extraction (scraper.py 22-147) -/

/-- The in-memory `Product` record (scraper.py 22-41). -/
structure Product where
  title : String
  price : Option Rat
  prev_price : Option Rat
  link : String
  image : String
  brand : String
  product_code : String
deriving DecidableEq

/-- One `.product-item-holder` card as the selectors of
`_extract_products_from_soup` see it: the `.title a` element (its text and
optional `href`), the `.image img` element (present or not, with an optional
`src`), the `.price-current` text, and the `.brand` element (its text and the
text of a nested `span`). -/
structure Card where
  title_el : Option (String × Option String)
  image_el : Option (Option String)
  price_text : Option String
  brand_el : Option (String × Option String)
deriving DecidableEq

/-- A fetched page as `fetch_all_products` inspects it: the product cards,
the `.pagination .current` text, and the `.pagination a` links as
(label text, optional href) pairs. -/
structure PageSoup where
  cards : List Card
  current_label : Option String
  pag_links : List (String × Option String)
deriving DecidableEq

/-- Outcome of `requests.get` for one page: a raised `RequestException`
(covering network errors, timeouts and `raise_for_status`) or parsed content. -/
inductive FetchOutcome
  | failed
  | ok (soup : PageSoup)
deriving DecidableEq

/-- Prefix test on character lists (used to model absolute-URL detection in
`urljoin`). -/
def isPrefixOfChars : List Char → List Char → Bool
  | [], _ => true
  | _ :: _, [] => false
  | a :: as, b :: bs => (a == b) && isPrefixOfChars as bs

/-- Model of `urllib.parse.urljoin`, restricted to the cases the program
exercises: an absolute URL is kept, a relative one is resolved against the
base.  The claims do not depend on finer resolution rules. -/
def urljoin (base url : String) : String :=
  if isPrefixOfChars "http://".data url.data || isPrefixOfChars "https://".data url.data
  then url else base ++ url

/-- The fixed base origin used for link and image resolution
(scraper.py 119, 127). -/
def dmoBase : String := "https://www.dmo.gov.tr/"

/-- Whitespace trim on character lists (what Python `int(s)` does before
parsing). -/
def trimChars (cs : List Char) : List Char :=
  ((cs.dropWhile Char.isWhitespace).reverse.dropWhile Char.isWhitespace).reverse

/-- Model of Python `int(s)` on pagination label texts: surrounding
whitespace is stripped and a nonempty all-digit string parses; anything else
raises `ValueError`, modelled as `none`. -/
def pyInt (s : String) : Option Nat :=
  if (trimChars s.data).length > 0 && (trimChars s.data).all Char.isDigit
  then some (digitsToNat (trimChars s.data)) else none

/-- First whitespace-separated token of a string, as `s.split()[0]` sees it
(`none` when the string holds no token at all, Python's empty split). -/
def firstWord (s : String) : Option String :=
  match (s.data.dropWhile Char.isWhitespace).takeWhile (fun c => !(c.isWhitespace)) with
  | [] => none
  | c :: cs => some (String.mk (c :: cs))

/-- Processing of a single product card (scraper.py 109-146), threading the
`seen_links` set.  A card is dropped (`none`) when the title element or the
link is missing or empty, when the link was already seen, or when the price
text yields no value or raises during normalization (both caught per card).
A missing image element falls back to the placeholder path; an image element
without a `src` gives `image = None`, and `urljoin(base, None)` returns the
base itself (urljoin returns its base argument on a falsy url), so such a
card is kept with the base origin as its image. -/
def extractCard (seen : List String) (c : Card) : List String × Option Product :=
  match c.title_el with
  | none => (seen, none)
  | some (titleText, hrefOpt) =>
    let title := if titleText == "" then "Unknown" else titleText
    match hrefOpt with
    | none => (seen, none)
    | some href =>
      if href == "" then (seen, none)
      else
        let link := urljoin dmoBase href
        if seen.contains link then (seen, none)
        else
          let seen' := seen ++ [link]
          let image := match c.image_el with
            | some (some src) => urljoin dmoBase src
            | some none => dmoBase
            | none => urljoin dmoBase "/static/images/no-image.jpg"
          let brand := match c.brand_el with
            | some (btext, _) => (firstWord btext).getD "Unknown"
            | none => "Unknown"
          let code := match c.brand_el with
            | some (_, some spanText) => spanText
            | _ => "-"
          match normalizeOptPrice c.price_text with
          | .val q => (seen', some ⟨title, some q, none, link, image, brand, code⟩)
          | _ => (seen', none)

/-- Model of `_extract_products_from_soup` (scraper.py 106-147): fold the
cards left to right, collecting the surviving products and growing the
`seen_links` set. -/
def extractProductsFromSoup (seen : List String) (cards : List Card) :
    List Product × List String :=
  cards.foldl (fun acc c =>
    let r := extractCard acc.2 c
    match r.2 with
    | some p => (acc.1 ++ [p], r.1)
    | none => (acc.1, r.1)) (([] : List Product), seen)

/-- Scan of the `.pagination a` links (scraper.py 85-98): the first link whose
label parses to the target page number is taken (labels that raise in `int`
are skipped); a missing or falsy `href` on that link leaves no next page. -/
def findNextLink (links : List (String × Option String)) (target : Nat) :
    Option String :=
  match links.find? (fun l => pyInt l.1 == some target) with
  | none => none
  | some l =>
    match l.2 with
    | none => none
    | some h => if h == "" then none else some h

/-- Next-page resolution of one page (scraper.py 74-98): requires a
`.pagination .current` element whose text parses as an integer, then a
pagination link labelled with the successor page. -/
def nextPageUrl (soup : PageSoup) : Option String :=
  match soup.current_label with
  | none => none
  | some lbl =>
    match pyInt lbl with
    | none => none
    | some cur => findNextLink soup.pag_links (cur + 1)

/-- Model of the `while True` crawl loop of `fetch_all_products`
(scraper.py 52-104) over a fetch environment `env`.  The fuel argument only
bounds the recursion for totality; every claim is about the loop's explicit
stopping cases, which are reached with fuel to spare.  On a failed fetch, on a
page with no surviving products, and on unresolvable pagination the loop
returns the accumulated products. -/
def fetchAllProductsAux (env : String → FetchOutcome) :
    Nat → String → List String → List Product → List Product
  | 0, _, _, acc => acc
  | fuel + 1, url, seen, acc =>
    match env url with
    | .failed => acc
    | .ok soup =>
      let r := extractProductsFromSoup seen soup.cards
      if r.1 = [] then acc
      else
        match nextPageUrl soup with
        | none => acc ++ r.1
        | some href => fetchAllProductsAux env fuel (urljoin url href) r.2 (acc ++ r.1)

/-- Entry point of the crawl: empty `seen_links` set, empty accumulator. -/
def fetchAllProducts (env : String → FetchOutcome) (fuel : Nat) (startUrl : String) :
    List Product :=
  fetchAllProductsAux env fuel startUrl [] []

/-! ### Persisted rows and the reconciliation store
(src/app/database.py, scraper.py 195-259) -/

/-- The `scraped_data` row (database.py 6-17).  Note the model defines
`current_price`; a `prev_price` column is commented out and there is no
`price` attribute. -/
structure ScrapedData where
  id : Nat
  title : String
  current_price : Rat
  link : String
  image : String
  brand : String
  product_code : String
  last_updated : Int
deriving DecidableEq

/-- The `price_history` row (database.py 22-27). -/
structure PriceHistory where
  product_id : Nat
  price : Rat
  timestamp : Int
deriving DecidableEq

/-- The database session state: the committed-or-flushed `scraped_data` and
`price_history` tables plus the id sequence for fresh rows. -/
structure DBState where
  entries : List ScrapedData
  histories : List PriceHistory
  nextId : Nat
deriving DecidableEq

/-- A new `ScrapedData` row built from an observed product
(scraper.py 231-241). -/
def mkScrapedData (id : Nat) (p : Product) (q : Rat) (now : Int) : ScrapedData :=
  ⟨id, p.title, q, p.link, p.image, p.brand, p.product_code, now⟩

/-- One iteration of the `save_to_db` loop (scraper.py 215-241): a product
without a price is skipped; a product whose link matches an existing row
mutates that row and records a history sample only when the price differs
(the sample carries the row's price from before the update); an unseen link
is queued as a new row, invisible to lookups until `add_all`. -/
def saveStep (now : Int) (acc : DBState × List ScrapedData × List PriceHistory)
    (p : Product) : DBState × List ScrapedData × List PriceHistory :=
  match p.price with
  | none => acc
  | some q =>
    match acc.1.entries.find? (fun e => e.link == p.link) with
    | some e =>
      if e.current_price = q then acc
      else
        ({ acc.1 with entries := acc.1.entries.map (fun x =>
             if x.id = e.id then { x with current_price := q, last_updated := now } else x) },
         acc.2.1, acc.2.2 ++ [⟨e.id, e.current_price, now⟩])
    | none =>
      ({ acc.1 with nextId := acc.1.nextId + 1 },
       acc.2.1 ++ [mkScrapedData acc.1.nextId p q now], acc.2.2)

/-- Model of `ProductSaver.save_to_db` (scraper.py 211-247): run the loop,
then `add_all` the queued rows and samples and commit.  `commitOk` says
whether the commit succeeds; on failure the session is rolled back to the
incoming state and the exception is swallowed (logged only). -/
def saveToDb (commitOk : Bool) (now : Int) (products : List Product)
    (st : DBState) : DBState :=
  let r := products.foldl (saveStep now) (st, ([] : List ScrapedData), ([] : List PriceHistory))
  if commitOk then
    { entries := r.1.entries ++ r.2.1, histories := r.1.histories ++ r.2.2, nextId := r.1.nextId }
  else st

/-- The response dictionary of `scrape_from_user_url` (scraper.py 256, 259). -/
structure ScrapeResponse where
  status : String
  message : String
deriving DecidableEq

/-- Model of `scrape_from_user_url` (scraper.py 249-259).  The crawl result
is passed in as `products` (the crawl itself is `fetchAllProducts`); the JSON
snapshot write has no effect on the database.  `save_to_db` catches its own
exceptions, so the function always reaches its success return. -/
def scrapeFromUserUrl (commitOk : Bool) (now : Int) (products : List Product)
    (st : DBState) : DBState × ScrapeResponse :=
  let st' := saveToDb commitOk now products st
  (st', ⟨"success", toString products.length ++ " products scraped and saved successfully."⟩)

/-! ### The scheduled refresh (scraper.py 149-193 and 261-289) -/

/-- The attributes the `ScrapedData` model defines (database.py 8-17):
its columns plus the `prices` relationship.  There is no `price` attribute —
the `prev_price` column at database.py line 11 is commented out. -/
def scrapedDataAttrs : List String :=
  ["id", "title", "current_price", "link", "image", "brand", "product_code",
   "last_updated", "prices"]

/-- Python attribute read `row.price` on a persisted `ScrapedData` row, as
performed by `ProductPriceUpdater.__init__` (scraper.py 152) on the rows that
`update_product_price` passes it (scraper.py 281-283).  Since `"price"` is
not among `scrapedDataAttrs`, the read raises `AttributeError`, modelled as
`none`. -/
def getattrPrice (_ : ScrapedData) : Option Rat := none

/-- Outcome of `ProductPriceUpdater.fetch_current_price` for one link after
the `@retry` policy: a returned optional price, or exhausted retries /
propagated `ValueError`, modelled as `raised`. -/
inductive FetchPrice
  | ok (price : Option Rat)
  | raised
deriving DecidableEq

/-- The persisted-entry reconciliation block of `update_single_product`
(scraper.py 267-276): look the row up by link; when found and its stored
price differs from the observed one, append a history sample carrying the
stored price and update the row in place. -/
def reconcileUpdatedPrice (now : Int) (st : DBState) (link : String)
    (updated : Rat) : DBState :=
  match st.entries.find? (fun e => e.link == link) with
  | none => st
  | some e =>
    if e.current_price = updated then st
    else
      { st with
        entries := st.entries.map (fun x =>
          if x.id = e.id then { x with current_price := updated, last_updated := now } else x),
        histories := st.histories ++ [⟨e.id, e.current_price, now⟩] }

/-- Model of `update_single_product` (scraper.py 262-278).  The Boolean
records whether the entry was processed without a logged per-entry error.
The first step, `ProductPriceUpdater(product)`, reads `product.price`
(scraper.py 152); the `AttributeError` is caught by the per-entry handler
(scraper.py 277-278), which logs and returns.  Were the read to succeed, the
flow of `update_product_price` (scraper.py 179-193) and the reconciliation
block would follow. -/
def updateSingleProduct (env : String → FetchPrice) (now : Int) (st : DBState)
    (row : ScrapedData) : DBState × Bool :=
  match getattrPrice row with
  | none => (st, false)
  | some prevPrice =>
    match env row.link with
    | .raised => (st, false)
    | .ok none => (st, true)
    | .ok (some current) =>
      if prevPrice = current then (st, true)
      else (reconcileUpdatedPrice now st row.link current, true)

/-- Model of `update_product_price` (scraper.py 261-289): take all persisted
rows, process each one (the worker pool's per-entry tasks, every one of which
is awaited via `future.result()`), then commit; on a failed commit the
session rolls back.  The returned list holds one Boolean per processed
entry. -/
def updateProductPrice (env : String → FetchPrice) (commitOk : Bool) (now : Int)
    (st : DBState) : DBState × List Bool :=
  let r := st.entries.foldl (fun acc row =>
    let s := updateSingleProduct env now acc.1 row
    (s.1, acc.2 ++ [s.2])) (st, ([] : List Bool))
  if commitOk then r else (st, r.2)

/-! ### Retention cleanup and the scheduled job
(src/app/database.py 32-42, src/app/__init__.py 53-61) -/

/-- Model of `clean_old_data` (database.py 32-42): delete every
`scraped_data` row whose `last_updated` lies strictly before
`now - threshold_seconds`; the `price_history` table is not touched. -/
def clean_old_data (now threshold_seconds : Int) (st : DBState) : DBState :=
  { st with entries :=
      st.entries.filter (fun e => !(decide (e.last_updated < now - threshold_seconds))) }

/-- `clean_old_data()` as the scheduler's job calls it, with the default
argument `threshold_seconds = 3` (database.py 32, called at __init__.py 59). -/
def clean_old_data_default (now : Int) (st : DBState) : DBState :=
  clean_old_data now 3 st

/-- Model of `safe_update_product_price` (__init__.py 53-61): run the price
update, then the cleanup with its default threshold.  `update_product_price`
catches its own exceptions, so the cleanup is always reached. -/
def safe_update_product_price (env : String → FetchPrice) (commitOk : Bool)
    (now : Int) (st : DBState) : DBState :=
  clean_old_data_default now (updateProductPrice env commitOk now st).1

/-! ### Concrete instances used by the theorems below -/

/-- A persisted entry for the refresh scenario: link L, stored price 100. -/
def c1Entry : ScrapedData := ⟨1, "Item", 100, "https://www.dmo.gov.tr/item", "", "B", "-", 0⟩

/-- A store holding exactly the scenario entry. -/
def c1State : DBState := ⟨[c1Entry], [], 2⟩

/-- A fetch environment where every page shows the price text "150,00",
routed through the program's own normalization. -/
def c1Env : String → FetchPrice := fun _ =>
  match normalizePrice "150,00" with
  | .val q => .ok (some q)
  | .noValue => .ok none
  | .raised => .raised

/-- A valid observed product over an empty store. -/
def c3Product : Product := ⟨"t", some 5, none, "L3", "", "b", "-"⟩

/-- An environment in which every per-entry fetch fails permanently. -/
def c7Env : String → FetchPrice := fun _ => .raised

/-- Two persisted entries for the failure-isolation witness. -/
def c7State : DBState :=
  ⟨[⟨1, "a", 1, "A", "", "b", "-", 0⟩, ⟨2, "c", 2, "C", "", "b", "-", 0⟩], [], 3⟩

/-- An entry last updated at time 0, old enough for the default retention. -/
def c9Entry : ScrapedData := ⟨1, "old", 5, "L9", "", "b", "-", 0⟩

/-- A store holding only the stale entry. -/
def c9State : DBState := ⟨[c9Entry], [], 2⟩

/-- A persisted entry with stored price 100 for the sample invariant. -/
def c2Entry : ScrapedData := ⟨1, "t", 100, "L", "", "b", "-", 0⟩

/-- A store holding only that entry. -/
def c2State : DBState := ⟨[c2Entry], [], 2⟩

/-- An observed product at the same link with the differing price 150. -/
def c2Product : Product := ⟨"t", some 150, none, "L", "", "b", "-"⟩

/-- An observed product at a link absent from the empty store. -/
def c6Product : Product := ⟨"t", some 9, none, "L6", "", "b", "-"⟩

/-- A complete product card whose price text is "150,00". -/
def c5Card : Card := ⟨some ("P", some "https://x/p"), none, some "150,00", none⟩

/-- A page with one usable product and no pagination at all. -/
def c5SoupNoNext : PageSoup := ⟨[c5Card], none, []⟩

/-- An environment whose every fetch raises. -/
def c5EnvFail : String → FetchOutcome := fun _ => .failed

/-- An environment whose every page carries no product cards. -/
def c5EnvEmpty : String → FetchOutcome := fun _ => .ok ⟨[], some "1", []⟩

/-- An environment whose every page is the one-product, no-pagination page. -/
def c5EnvNoNext : String → FetchOutcome := fun _ => .ok c5SoupNoNext

end Scrape

namespace Scrape

/-! ### Theorems for the claims -/

/-- Helper: the value `float` returns on a cleaned price string, expressed
through the integer values of its parts, for computing with concrete
strings without reducing rational arithmetic in the kernel. -/
theorem pyFloat_value_eq (cs : List Char) (a b k : Nat)
    (h : (cs.count '.' ≤ 1 && cs.any Char.isDigit) = true)
    (ha : digitsToNat (cs.takeWhile (fun c => !(c == '.'))) = a)
    (hb : digitsToNat ((cs.dropWhile (fun c => !(c == '.'))).drop 1) = b)
    (hk : ((cs.dropWhile (fun c => !(c == '.'))).drop 1).length = k) :
    pyFloatOfPriceChars cs = some ((a : Rat) + (b : Rat) / (10 : Rat) ^ k) := by
  simp only [pyFloatOfPriceChars, h, if_true, ha, hb, hk]

/-- Helper: normalization produces a value as soon as the cleaned text is
nonempty and `float` parses it. -/
theorem normalizePrice_val_of (s : String) (cl : List Char) (q : Rat)
    (hs : ¬(s = ""))
    (hcl : pyStripNonPriceChars (pyReplacePeriodsThenCommas s.data) = cl)
    (hne : cl ≠ [])
    (hq : pyFloatOfPriceChars cl = some q) :
    normalizePrice s = NormResult.val q := by
  rcases cl with _ | ⟨a, l⟩
  · exact absurd rfl hne
  · simp only [normalizePrice, if_neg hs, hcl, hq]

/-- Helper: the scenario's fetched price string "150,00" normalizes to the
value 150. -/
theorem normalize_150_00 : normalizePrice "150,00" = NormResult.val 150 := by
  have h := normalizePrice_val_of "150,00" ("150.00".data)
    ((150 : Rat) + (0 : Rat) / (10 : Rat) ^ (2 : Nat))
    (by decide) (by decide) (by decide)
    (pyFloat_value_eq ("150.00".data) 150 0 2 (by decide) (by decide) (by decide) (by decide))
  have hv : (150 : Rat) + (0 : Rat) / (10 : Rat) ^ (2 : Nat) = 150 := by norm_num
  rw [h, hv]

/-- C1 (code bug): in the claim's scenario — one persisted CatalogEntry with
stored current price 100.00 whose page now shows the price string "150,00"
(which the program's own normalizer reads as 150) — the scheduled refresh
leaves the entry's stored price at 100.00 and creates no PriceHistorySample:
`ProductPriceUpdater.__init__` reads `product.price` on a `ScrapedData` row,
which defines `current_price` but no `price` attribute, so every per-entry
worker fails with `AttributeError`, caught and merely logged at
scraper.py 277-278. -/
theorem c1_refresh_scenario :
    c1Env c1Entry.link = FetchPrice.ok (some 150) ∧
    c1Entry.current_price = 100 ∧
    updateProductPrice c1Env true 5 c1State = (c1State, [false]) := by
  refine ⟨?_, rfl, rfl⟩
  show c1Env c1Entry.link = FetchPrice.ok (some 150)
  simp only [c1Env, normalize_150_00]

/-- C3 (counterexample): with a failing commit, the batch is rolled back, yet
`scrape_from_user_url` — the caller of the persisting operation — still
answers with status "success", because `save_to_db` swallows the
`PersistenceError`; the claim's "the caller is told the batch was not
applied" is false. -/
theorem c3_counterexample :
    (scrapeFromUserUrl false 0 [c3Product] ⟨[], [], 1⟩).2.status = "success" ∧
    (scrapeFromUserUrl false 0 [c3Product] ⟨[], [], 1⟩).1 = ⟨[], [], 1⟩ := by
  decide

/-- C3 (amended): when persisting a batch fails partway, no entry or history
row from the batch is persisted — the whole batch rolls back — but the
failure is swallowed: `save_to_db` logs it and returns normally, and the
caller reports success instead of "not applied". -/
theorem c3_amended (now : Int) (ps : List Product) (st : DBState) :
    saveToDb false now ps st = st ∧
    (scrapeFromUserUrl false now ps st).1 = st ∧
    (scrapeFromUserUrl false now ps st).2.status = "success" :=
  ⟨rfl, rfl, rfl⟩

/-- Helper for C7: the refresh fold produces exactly one log record per
processed row, whatever the per-row outcomes. -/
theorem updateFoldLength (env : String → FetchPrice) (now : Int)
    (rows : List ScrapedData) :
    ∀ (st : DBState) (acc : List Bool),
      (rows.foldl (fun acc row =>
        let s := updateSingleProduct env now acc.1 row
        (s.1, acc.2 ++ [s.2])) (st, acc)).2.length = acc.length + rows.length := by
  induction rows with
  | nil => intro st acc; simp
  | cons r rs ih =>
    intro st acc
    simp only [List.foldl_cons]
    rw [ih]
    simp
    omega

/-- C7: during a refresh over the N persisted entries, every entry is
processed — the result carries exactly one per-entry record per row, for
every fetch environment, including ones that fail permanently or exhaust
their retries on any entry — and a failing entry is contained: its processing
ends in a logged per-entry failure that leaves the session state untouched,
so it cannot abort the other N-1 entries, and the job completes after all
of them. -/
theorem c7_per_entry_isolation (env : String → FetchPrice) (commitOk : Bool)
    (now : Int) (st : DBState) (row : ScrapedData) :
    ((updateProductPrice env commitOk now st).2).length = st.entries.length ∧
    (env row.link = FetchPrice.raised → updateSingleProduct env now st row = (st, false)) := by
  constructor
  · have h := updateFoldLength env now st.entries st ([] : List Bool)
    unfold updateProductPrice
    cases commitOk <;> simpa using h
  · intro _
    rfl

/-- C7 (witness): with two persisted entries and an environment in which
every fetch fails permanently, the refresh still processes both entries and
each failure leaves the store untouched. -/
theorem c7_witness :
    ((updateProductPrice c7Env true 0 c7State).2).length = 2 ∧
    updateSingleProduct c7Env 0 c7State ⟨1, "a", 1, "A", "", "b", "-", 0⟩
      = (c7State, false) := by
  have h := c7_per_entry_isolation c7Env true 0 c7State ⟨1, "a", 1, "A", "", "b", "-", 0⟩
  exact ⟨h.1, h.2 rfl⟩

/-- C2: in both reconciliation paths — the `save_to_db` loop body and the
refresh's per-entry block — when the observed product matches an existing
persisted entry, a history sample is appended if and only if the observed
price differs from the entry's stored current price, and the appended sample
always carries the entry's stored price from immediately before the update,
never the newly observed one; on an unchanged price nothing at all is
mutated. -/
theorem c2_history_sample_iff (now : Int) (st : DBState) (nps : List ScrapedData)
    (phs : List PriceHistory) (p : Product) (q : Rat) (e : ScrapedData)
    (st2 : DBState) (link2 : String) (q2 : Rat) (e2 : ScrapedData)
    (hq : p.price = some q)
    (he : st.entries.find? (fun x => x.link == p.link) = some e)
    (he2 : st2.entries.find? (fun x => x.link == link2) = some e2) :
    (((saveStep now (st, nps, phs) p).2.2 ≠ phs) ↔ e.current_price ≠ q) ∧
    (e.current_price ≠ q →
      (saveStep now (st, nps, phs) p).2.2 = phs ++ [⟨e.id, e.current_price, now⟩]) ∧
    (e.current_price = q → saveStep now (st, nps, phs) p = (st, nps, phs)) ∧
    (((reconcileUpdatedPrice now st2 link2 q2).histories ≠ st2.histories) ↔
      e2.current_price ≠ q2) ∧
    (e2.current_price ≠ q2 →
      (reconcileUpdatedPrice now st2 link2 q2).histories
        = st2.histories ++ [⟨e2.id, e2.current_price, now⟩]) ∧
    (e2.current_price = q2 → reconcileUpdatedPrice now st2 link2 q2 = st2) := by
  have hstepEq : saveStep now (st, nps, phs) p
      = if e.current_price = q then (st, nps, phs)
        else ({ st with entries := st.entries.map (fun x =>
            if x.id = e.id then { x with current_price := q, last_updated := now } else x) },
          nps, phs ++ [⟨e.id, e.current_price, now⟩]) := by
    simp only [saveStep, hq, he]
  have hrecEq : reconcileUpdatedPrice now st2 link2 q2
      = if e2.current_price = q2 then st2
        else { st2 with
          entries := st2.entries.map (fun x =>
            if x.id = e2.id then { x with current_price := q2, last_updated := now } else x),
          histories := st2.histories ++ [⟨e2.id, e2.current_price, now⟩] } := by
    simp only [reconcileUpdatedPrice, he2]
  refine ⟨?_, ?_, ?_, ?_, ?_, ?_⟩
  · rw [hstepEq]
    by_cases hc : e.current_price = q <;> simp [hc]
  · intro hne
    rw [hstepEq, if_neg hne]
  · intro hcq
    rw [hstepEq, if_pos hcq]
  · rw [hrecEq]
    by_cases hc : e2.current_price = q2 <;> simp [hc]
  · intro hne
    rw [hrecEq, if_neg hne]
  · intro hcq
    rw [hrecEq, if_pos hcq]

/-- C2 (witness): at the concrete store — entry with stored price 100,
observed price 150 — both reconciliation paths append exactly the sample
carrying the prior stored price 100. -/
theorem c2_witness :
    (saveStep 7 (c2State, [], []) c2Product).2.2 = [] ++ [⟨1, 100, 7⟩] ∧
    (reconcileUpdatedPrice 7 c2State "L" 150).histories = [] ++ [⟨1, 100, 7⟩] := by
  have h := c2_history_sample_iff 7 c2State [] [] c2Product 150 c2Entry
    c2State "L" 150 c2Entry rfl (by decide) (by decide)
  exact ⟨h.2.1 (by decide), h.2.2.2.2.1 (by decide)⟩

/-- Helper: folding digits onto an initial accumulator shifts the
accumulator by the length of the digit string. -/
theorem digitsToNat_foldl (b : List Char) :
    ∀ init : Nat, b.foldl (fun n c => 10 * n + (c.toNat - 48)) init
      = init * 10 ^ b.length + digitsToNat b := by
  induction b with
  | nil => intro init; simp [digitsToNat]
  | cons c cs ih =>
    intro init
    have h1 := ih (10 * init + (c.toNat - 48))
    have h2 := ih (10 * 0 + (c.toNat - 48))
    simp only [digitsToNat, List.foldl_cons, List.length_cons] at h1 h2 ⊢
    rw [h1, h2]
    ring

/-- Helper: the digits of a concatenation read as one integer. -/
theorem digitsToNat_append (a b : List Char) :
    digitsToNat (a ++ b) = digitsToNat a * 10 ^ b.length + digitsToNat b := by
  simp only [digitsToNat, List.foldl_append]
  exact digitsToNat_foldl b _

/-- Helper: the head of a nonempty `dropWhile` residue falsifies the
predicate. -/
theorem dropWhile_head_not (p : Char → Bool) :
    ∀ (l : List Char) (c : Char) (r : List Char),
      l.dropWhile p = c :: r → p c = false := by
  intro l
  induction l with
  | nil => intro c r h; simp [List.dropWhile] at h
  | cons a as ih =>
    intro c r h
    rw [List.dropWhile_cons] at h
    by_cases hp : p a = true
    · rw [if_pos hp] at h
      exact ih c r h
    · rw [if_neg hp] at h
      cases h
      simpa using hp

/-- Helper: every element of a `takeWhile` satisfies the predicate. -/
theorem mem_takeWhile_pred (p : Char → Bool) :
    ∀ (l : List Char) (c : Char), c ∈ l.takeWhile p → p c = true := by
  intro l
  induction l with
  | nil => intro c hc; simp [List.takeWhile] at hc
  | cons a as ih =>
    intro c hc
    rw [List.takeWhile_cons] at hc
    by_cases hp : p a = true
    · rw [if_pos hp] at hc
      rcases List.mem_cons.mp hc with h | h
      · exact h ▸ hp
      · exact ih c h
    · rw [if_neg hp] at hc
      simp at hc

/-- Helper: every element of a `filter` satisfies the predicate. -/
theorem mem_filter_pred (p : Char → Bool) :
    ∀ (l : List Char) (c : Char), c ∈ l.filter p → p c = true := by
  intro l
  induction l with
  | nil => intro c hc; simp at hc
  | cons a as ih =>
    intro c hc
    rw [List.filter_cons] at hc
    by_cases hp : p a = true
    · rw [if_pos hp] at hc
      rcases List.mem_cons.mp hc with h | h
      · exact h ▸ hp
      · exact ih c h
    · rw [if_neg hp] at hc
      exact ih c hc

/-- Helper: on a string of digits and periods with at most one period and at
least one digit, `float` returns exactly the decimal denoted by its digits —
the integer-part/fraction-part split of the source computes the same value as
reading all digits and scaling by the digits right of the separator. -/
theorem pyFloat_decimal (cs : List Char)
    (hmem : ∀ c ∈ cs, (c.isDigit || c == '.') = true)
    (hcount : cs.count '.' ≤ 1)
    (hdig : cs.any Char.isDigit = true) :
    pyFloatOfPriceChars cs = some (decimalOfPriceChars cs) := by
  have hcond : (cs.count '.' ≤ 1 && cs.any Char.isDigit) = true := by
    simp [hcount, hdig]
  have hsplit : cs.takeWhile (fun c => !(c == '.'))
      ++ cs.dropWhile (fun c => !(c == '.')) = cs :=
    List.takeWhile_append_dropWhile _ _
  have hadig : ∀ c ∈ cs.takeWhile (fun c => !(c == '.')), Char.isDigit c = true := by
    intro c hc
    have hpc : (!(c == '.')) = true := mem_takeWhile_pred _ cs c hc
    have hcs : c ∈ cs := hsplit ▸ List.mem_append_left _ hc
    have hm := hmem c hcs
    simp only [Bool.not_eq_true', beq_eq_false_iff_ne, ne_eq] at hpc
    simpa [hpc] using hm
  rcases hr : cs.dropWhile (fun c => !(c == '.')) with _ | ⟨d, b⟩
  · have hcs_eq : cs.takeWhile (fun c => !(c == '.')) = cs := by
      conv_rhs => rw [← hsplit, hr]
      rw [List.append_nil]
    have hall : ∀ c ∈ cs, Char.isDigit c = true := by
      intro c hc
      exact hadig c (by rw [hcs_eq]; exact hc)
    have hfilter : cs.filter Char.isDigit = cs := List.filter_eq_self.mpr hall
    have hkz : ((cs.dropWhile (fun c => !(c == '.'))).drop 1) = [] := by
      rw [hr]
      rfl
    simp only [pyFloatOfPriceChars, decimalOfPriceChars]
    rw [if_pos hcond, hkz, hcs_eq, hfilter]
    simp [digitsToNat]
  · have hd : d = '.' := by
      have hh := dropWhile_head_not _ cs d b hr
      simpa using hh
    subst hd
    have hacount : (cs.takeWhile (fun c => !(c == '.'))).count '.' = 0 := by
      rw [List.count_eq_zero]
      intro hmem'
      have hpc := mem_takeWhile_pred _ cs '.' hmem'
      simp at hpc
    have hbcount : b.count '.' = 0 := by
      have hc1 : (cs.takeWhile (fun c => !(c == '.'))
          ++ cs.dropWhile (fun c => !(c == '.'))).count '.' ≤ 1 := by
        rw [hsplit]
        exact hcount
      rw [hr, List.count_append, hacount, List.count_cons_self] at hc1
      omega
    have hbnotmem : '.' ∉ b := List.count_eq_zero.mp hbcount
    have hbdig : ∀ c ∈ b, Char.isDigit c = true := by
      intro c hc
      have hsub : List.Sublist (cs.dropWhile (fun c => !(c == '.'))) cs :=
        List.dropWhile_sublist _
      have hcs : c ∈ cs := hsub.subset (by rw [hr]; exact List.mem_cons_of_mem _ hc)
      have hm := hmem c hcs
      have hne : ¬(c = '.') := fun hcontra => hbnotmem (hcontra ▸ hc)
      simpa [hne] using hm
    have hdotdig : Char.isDigit '.' = false := by decide
    have hfilter : cs.filter Char.isDigit
        = cs.takeWhile (fun c => !(c == '.')) ++ b := by
      conv_lhs => rw [← hsplit, hr]
      rw [List.filter_append, List.filter_eq_self.mpr hadig, List.filter_cons]
      simp [hdotdig, List.filter_eq_self.mpr hbdig]
    have hk : ((cs.dropWhile (fun c => !(c == '.'))).drop 1) = b := by
      rw [hr]
      rfl
    simp only [pyFloatOfPriceChars, decimalOfPriceChars]
    rw [if_pos hcond, hk, hfilter, digitsToNat_append]
    have h10 : ((10 : Rat) ^ b.length) ≠ 0 := pow_ne_zero _ (by norm_num)
    congr 1
    push_cast
    field_simp

/-- Helper: normalization raises as soon as the cleaned text is nonempty and
`float` rejects it. -/
theorem normalizePrice_raised_of (s : String) (cl : List Char)
    (hs : ¬(s = ""))
    (hcl : pyStripNonPriceChars (pyReplacePeriodsThenCommas s.data) = cl)
    (hne : cl ≠ [])
    (hq : pyFloatOfPriceChars cl = none) :
    normalizePrice s = NormResult.raised := by
  rcases cl with _ | ⟨a, l⟩
  · exact absurd rfl hne
  · simp only [normalizePrice, if_neg hs, hcl, hq]

/-- C4 (counterexample): the input "," normalizes-and-strips to ".", a string
containing no digit at all, yet the code raises `ValueError` in `float(".")`
instead of returning no value — refuting the claim's "returns no value
without raising whenever the input is empty or normalizes to a string
containing no digits". -/
theorem c4_counterexample :
    (pyStripNonPriceChars (pyReplacePeriodsThenCommas (String.data ","))).all
        (fun c => !c.isDigit) = true ∧
    normalizePrice "," = NormResult.raised := by
  constructor
  · decide
  · exact normalizePrice_raised_of "," ['.'] (by decide) (by decide) (by decide) (by decide)

/-- C4 (amended): with `cl` the cleaned form of the input (periods deleted,
decimal comma turned into a period, remaining non-digit/non-period characters
stripped): normalization returns no value — without raising — exactly when
`cl` is empty (which covers the empty input); it returns the decimal denoted
by `cl` (all digits of `cl` read as an integer, scaled down by the digits
right of the period, so "1.234,56" yields 1234.56) whenever `cl` has at most
one period and at least one digit; and it raises `ValueError` on every other
nonempty `cl` — for instance when the input normalizes to a digitless
nonempty string such as ".". -/
theorem c4_amended (s : String) (cl : List Char)
    (hcl : pyStripNonPriceChars (pyReplacePeriodsThenCommas s.data) = cl) :
    (normalizePrice s = NormResult.noValue ↔ cl = []) ∧
    (cl.count '.' ≤ 1 → cl.any Char.isDigit = true →
      normalizePrice s = NormResult.val (decimalOfPriceChars cl)) ∧
    ((1 < cl.count '.' ∨ cl.any Char.isDigit = false) → cl ≠ [] →
      normalizePrice s = NormResult.raised) := by
  have hmem : ∀ c ∈ cl, (c.isDigit || c == '.') = true := by
    intro c hc
    rw [← hcl] at hc
    simp only [pyStripNonPriceChars] at hc
    exact mem_filter_pred _ _ c hc
  by_cases hs : s = ""
  · have hnil : cl = [] := by
      rw [← hcl, hs]
      rfl
    subst hnil
    refine ⟨?_, ?_, ?_⟩
    · rw [hs]
      simp [normalizePrice]
    · intro _ hdig
      simp at hdig
    · intro _ hne
      exact absurd rfl hne
  · refine ⟨?_, ?_, ?_⟩
    · rcases hclcase : cl with _ | ⟨a, l⟩
      · subst hclcase
        constructor
        · intro _; rfl
        · intro _
          simp only [normalizePrice, if_neg hs, hcl]
      · subst hclcase
        constructor
        · intro hnv
          exfalso
          rcases hpf : pyFloatOfPriceChars (a :: l) with _ | q
          · rw [normalizePrice_raised_of s (a :: l) hs hcl (by simp) hpf] at hnv
            exact NormResult.noConfusion hnv
          · rw [normalizePrice_val_of s (a :: l) q hs hcl (by simp) hpf] at hnv
            exact NormResult.noConfusion hnv
        · intro hcontra
          exact absurd hcontra (by simp)
    · intro hcount hdig
      exact normalizePrice_val_of s cl (decimalOfPriceChars cl) hs hcl
        (by rintro rfl; simp at hdig)
        (pyFloat_decimal cl hmem hcount hdig)
    · intro hbad hne
      refine normalizePrice_raised_of s cl hs hcl hne ?_
      rcases hbad with hgt | hnd
      · simp only [pyFloatOfPriceChars]
        have : ¬(cl.count '.' ≤ 1) := by omega
        simp [this]
      · simp [pyFloatOfPriceChars, hnd]

/-- C4 (witness): concrete normalizations — "1.234,56" cleans to "1234.56"
and yields the value 1234.56, while "" and "abc" yield no value. -/
theorem c4_witness :
    normalizePrice "1.234,56" = NormResult.val (decimalOfPriceChars ("1234.56".data)) ∧
    decimalOfPriceChars ("1234.56".data) = (123456 : Rat) / 100 ∧
    normalizePrice "" = NormResult.noValue ∧
    normalizePrice "abc" = NormResult.noValue := by
  refine ⟨?_, ?_, ?_, ?_⟩
  · exact (c4_amended "1.234,56" ("1234.56".data) (by decide)).2.1 (by decide) (by decide)
  · have hdg : digitsToNat ("1234.56".data.filter Char.isDigit) = 123456 := by decide
    have hln : ((("1234.56".data).dropWhile (fun c => !(c == '.'))).drop 1).length = 2 := by
      decide
    simp only [decimalOfPriceChars, hdg, hln]
    norm_num
  · exact (c4_amended "" [] rfl).1.mpr rfl
  · exact (c4_amended "abc" [] (by decide)).1.mpr rfl

/-- C5: the crawl loop stops in exactly the three stated situations — a
failed fetch, a page yielding zero usable products, and unresolvable
pagination (which covers an absent or non-numeric current-page indicator and
a missing next-page link) — and in all three it returns the products
accumulated so far (plus, in the pagination case, the current page's
products, which the source appends before inspecting pagination) instead of
discarding them or raising. -/
theorem c5_crawl_termination (env : String → FetchOutcome) (fuel : Nat)
    (url : String) (seen : List String) (acc : List Product) (soup : PageSoup) :
    (env url = FetchOutcome.failed →
      fetchAllProductsAux env (fuel + 1) url seen acc = acc) ∧
    (env url = FetchOutcome.ok soup →
      (extractProductsFromSoup seen soup.cards).1 = [] →
      fetchAllProductsAux env (fuel + 1) url seen acc = acc) ∧
    (env url = FetchOutcome.ok soup →
      (extractProductsFromSoup seen soup.cards).1 ≠ [] →
      nextPageUrl soup = none →
      fetchAllProductsAux env (fuel + 1) url seen acc
        = acc ++ (extractProductsFromSoup seen soup.cards).1) := by
  refine ⟨?_, ?_, ?_⟩
  · intro h
    simp [fetchAllProductsAux, h]
  · intro h hemp
    simp [fetchAllProductsAux, h, hemp]
  · intro h hne hnp
    simp [fetchAllProductsAux, h, hne, hnp]

/-- C5 (witness): the three stopping cases at concrete environments — a
failing fetch and an empty page return the (empty) accumulator, and a page
with one product but no pagination returns exactly that page's products. -/
theorem c5_witness :
    fetchAllProductsAux c5EnvFail 1 "u" [] [] = [] ∧
    fetchAllProductsAux c5EnvEmpty 1 "u" [] [] = [] ∧
    fetchAllProductsAux c5EnvNoNext 1 "u" [] []
      = [] ++ (extractProductsFromSoup [] c5SoupNoNext.cards).1 := by
  have hne : (extractProductsFromSoup [] c5SoupNoNext.cards).1 ≠ [] := by
    intro hcontra
    have hb : (extractProductsFromSoup [] c5SoupNoNext.cards).1.isEmpty = false := rfl
    rw [hcontra] at hb
    simp at hb
  exact ⟨(c5_crawl_termination c5EnvFail 0 "u" [] [] c5SoupNoNext).1 rfl,
    (c5_crawl_termination c5EnvEmpty 0 "u" [] [] ⟨[], some "1", []⟩).2.1 rfl rfl,
    (c5_crawl_termination c5EnvNoNext 0 "u" [] [] c5SoupNoNext).2.2 rfl hne rfl⟩

/-- C6: reconciling the same observed product twice with an unchanged price
is idempotent — starting from a store with no entry for the product's link,
the first reconciliation inserts exactly one entry for that link and no
history sample, and the second reconciliation is the identity: still exactly
one CatalogEntry, no duplicate row, no new PriceHistorySample. -/
theorem c6_upsert_idempotent (now1 now2 : Int) (p : Product) (q : Rat)
    (st0 : DBState) (hq : p.price = some q)
    (h0 : st0.entries.find? (fun x => x.link == p.link) = none) :
    saveToDb true now2 [p] (saveToDb true now1 [p] st0) = saveToDb true now1 [p] st0 ∧
    ((saveToDb true now1 [p] st0).entries.filter
        (fun x => x.link == p.link)).length = 1 ∧
    (saveToDb true now1 [p] st0).histories = st0.histories := by
  have h1 : saveToDb true now1 [p] st0
      = ⟨st0.entries ++ [mkScrapedData st0.nextId p q now1], st0.histories,
         st0.nextId + 1⟩ := by
    simp [saveToDb, saveStep, hq, h0]
  have h2 : saveToDb true now2 [p] (saveToDb true now1 [p] st0)
      = saveToDb true now1 [p] st0 := by
    rw [h1]
    simp [saveToDb, saveStep, hq, h0, mkScrapedData]
  have hfilter0 : st0.entries.filter (fun x => x.link == p.link) = [] :=
    List.filter_eq_nil_iff.mpr (List.find?_eq_none.mp h0)
  have h3 : ((saveToDb true now1 [p] st0).entries.filter
      (fun x => x.link == p.link)).length = 1 := by
    rw [h1]
    simp [List.filter_append, hfilter0, mkScrapedData]
  exact ⟨h2, h3, by rw [h1]⟩

/-- C6 (witness): the double reconciliation at a concrete product over the
empty store — the second pass changes nothing and one entry stands. -/
theorem c6_witness :
    saveToDb true 2 [c6Product] (saveToDb true 1 [c6Product] ⟨[], [], 1⟩)
      = saveToDb true 1 [c6Product] ⟨[], [], 1⟩ ∧
    ((saveToDb true 1 [c6Product] ⟨[], [], 1⟩).entries.filter
        (fun x => x.link == c6Product.link)).length = 1 := by
  have h := c6_upsert_idempotent 1 2 c6Product 9 ⟨[], [], 1⟩ rfl rfl
  exact ⟨h.1, h.2.1⟩

/-- C9: the scheduled job runs the cleanup with its default 3-second
threshold right after the price update, and the cleanup keeps a persisted
entry exactly when its `last_updated` timestamp is not more than 3 seconds in
the past — every entry older than that is deleted. -/
theorem c9_retention (env : String → FetchPrice) (commitOk : Bool) (now : Int)
    (st : DBState) (e : ScrapedData) :
    safe_update_product_price env commitOk now st
      = clean_old_data now 3 (updateProductPrice env commitOk now st).1 ∧
    (e ∈ (clean_old_data now 3 st).entries ↔
      e ∈ st.entries ∧ ¬(e.last_updated < now - 3)) := by
  constructor
  · rfl
  · simp [clean_old_data, List.mem_filter]

/-- C9 (witness): the retention behavior at a concrete store — an entry last
updated at time 0 is deleted by the cleanup running at time 10. -/
theorem c9_witness :
    safe_update_product_price c7Env true 10 c9State
      = clean_old_data 10 3 (updateProductPrice c7Env true 10 c9State).1 ∧
    (c9Entry ∈ (clean_old_data 10 3 c9State).entries ↔
      c9Entry ∈ c9State.entries ∧ ¬(c9Entry.last_updated < 10 - 3)) :=
  c9_retention c7Env true 10 c9State c9Entry

/-- C10: the retention cleanup deletes only `scraped_data` rows — its result
keeps the `price_history` table exactly as it was (no cascade is configured),
so samples whose owning entry is deleted are retained as orphans — and the
surviving entries are a sublist of the original ones. -/
theorem c10_cleanup_frame (now threshold : Int) (st : DBState) :
    (clean_old_data now threshold st).histories = st.histories ∧
    List.Sublist (clean_old_data now threshold st).entries st.entries :=
  ⟨rfl, List.filter_sublist st.entries⟩

end Scrape
